import Mathlib

/-!
Verification of the spreadsheet-backed publishing queue: row selectors,
row updaters and the per-endpoint orchestration (Stage, Commit, Reap,
webhook verification), embedded shallowly from the TypeScript sources.

A sheet is modelled by its data rows (the range read starts at sheet row 2,
so list position `i` is sheet row `i + 2`); a row is its list of cell
strings, and a missing cell reads as `""`, mirroring `row[j] || ""`.
-/

/-- One cell read from a row: `row[j] || ""` in the source. -/
def cell (r : List String) (j : Nat) : String := r.getD j ""

/-- The data rows of one sheet tab (header row excluded). -/
abbrev Sheet := List (List String)

/-- Read the cell at data-row `i` (0-based), column `j`. -/
def cellAt (rows : Sheet) (i j : Nat) : String := cell (rows.getD i []) j

/-- Write one cell of a row, padding with empty cells as the sheets API does. -/
def setCellInRow : List String → Nat → String → List String
  | [], 0, v => [v]
  | [], j + 1, v => "" :: setCellInRow [] j v
  | _ :: tl, 0, v => v :: tl
  | c :: tl, j + 1, v => c :: setCellInRow tl j v

/-- Write the cell at data-row `i`, column `j` of a sheet. -/
def setCell : Sheet → Nat → Nat → String → Sheet
  | [], 0, j, v => [setCellInRow [] j v]
  | [], i + 1, j, v => [] :: setCell [] i j v
  | r :: rs, 0, j, v => setCellInRow r j v :: rs
  | r :: rs, i + 1, j, v => r :: setCell rs i j v

/-- Outcome of the Facebook Graph API calls (`/media`, `/media_publish`):
either a JSON body with an `id`, or a non-ok response carrying the optional
`error.message` and `error.code` fields. -/
inductive FbRes where
  | ok (id : String)
  | err (status : Nat) (message : Option String) (code : Option String)
deriving Repr, DecidableEq

/-- `url.replace(/\.[^/.]+$/, ".jpg")`: replace a final extension (a dot
followed by one or more characters that are neither `/` nor `.`, at the end
of the string) with `.jpg`; leave the string unchanged when no such suffix
exists. -/
def replaceExtJpg (s : String) : String :=
  let rev := s.toList.reverse
  let ext := rev.takeWhile (fun c => c != '.' && c != '/')
  match rev.drop ext.length with
  | '.' :: before =>
      if ext.isEmpty then s else String.mk (before.reverse ++ ".jpg".toList)
  | _ => s

namespace Canonical

/-- The canonical 11-column queue row (columns A-K), as read by the Stage
endpoint's `getNextUnprocessedRow`. -/
structure RowData where
  timestamp : String
  youtubeUrl : String
  cloudinaryUrl : String
  title : String
  description : String
  thumbnail : String
  tags : String
  instagramCaption : String
  publishedAt : String
  creationId : String
  error : String
deriving Repr, DecidableEq

/-- Build the `data` object returned by the selector from a raw row. -/
def rowDataOf (r : List String) : RowData :=
  { timestamp := cell r 0
    youtubeUrl := cell r 1
    cloudinaryUrl := cell r 2
    title := cell r 3
    description := cell r 4
    thumbnail := cell r 5
    tags := cell r 6
    instagramCaption := cell r 7
    publishedAt := cell r 8
    creationId := cell r 9
    error := cell r 10 }

/-- A selected row: its 1-based sheet row index and its parsed data. -/
structure Selected where
  rowIndex : Nat
  data : RowData
deriving Repr, DecidableEq

/-- The stage-ready predicate of the canonical schema: Cloudinary URL
(column C) non-empty, Published At (I), Creation ID (J) and Error (K)
all empty. -/
def stageReadyRow (r : List String) : Prop :=
  cell r 2 ≠ "" ∧ cell r 8 = "" ∧ cell r 9 = "" ∧ cell r 10 = ""

instance (r : List String) : Decidable (stageReadyRow r) := by
  unfold stageReadyRow; infer_instance

/-- Loop body of `getNextUnprocessedRow`: scan from running index `i`
(0-based position in the data rows). -/
def getNextUnprocessedRowGo (i : Nat) : Sheet → Option Selected
  | [] => none
  | r :: rest =>
      if cell r 2 ≠ "" ∧ cell r 8 = "" ∧ cell r 9 = "" ∧ cell r 10 = "" then
        some ⟨i + 2, rowDataOf r⟩
      else getNextUnprocessedRowGo (i + 1) rest

/-- `getNextUnprocessedRow` of the canonical Stage endpoint: first row with
a Cloudinary URL and empty Published At, Creation ID and Error; its
`rowIndex` is the list position plus 2 (header skipped). -/
def getNextUnprocessedRow (rows : Sheet) : Option Selected :=
  getNextUnprocessedRowGo 0 rows

/-- The sparse update set accepted by the canonical `updateSheetRow`
(`{ caption?, creationId?, error? }`); `none` models an absent field. -/
structure Updates where
  caption : Option String := none
  creationId : Option String := none
  error : Option String := none

/-- `updateSheetRow` of the canonical schema: caption to column H,
creationId to column J, and error appended to column K — the existing
error cell is read first and the new message is concatenated after a
newline when that cell is non-empty. -/
def updateSheetRow (rows : Sheet) (rowIndex : Nat) (u : Updates) : Sheet :=
  let r1 := match u.caption with
    | some c => setCell rows (rowIndex - 2) 7 c
    | none => rows
  let r2 := match u.creationId with
    | some cid => setCell r1 (rowIndex - 2) 9 cid
    | none => r1
  match u.error with
  | some e =>
      let existingError := cellAt r2 (rowIndex - 2) 10
      let newError := if existingError ≠ "" then existingError ++ "\n" ++ e else e
      setCell r2 (rowIndex - 2) 10 newError
  | none => r2

/-- External calls issued by the Stage endpoint, in issue order. -/
inductive Ev where
  | genCaption (title description : String)
  | writeCaption (rowIndex : Nat) (value : String)
  | writeCreationId (rowIndex : Nat) (value : String)
  | writeError (rowIndex : Nat) (message : String)
  | fbCreateContainer (caption coverUrl videoUrl : String)
deriving Repr, DecidableEq

/-- The HTTP response of the Stage endpoint, by branch. -/
inductive StageResult where
  | noRows
  | missingCloudinaryUrl (row : Nat)
  | missingTitle (row : Nat)
  | captionFailed (row : Nat) (details : String)
  | fbError (row : Nat) (status : Nat)
  | success (creationId : String) (row : Nat) (captionGenerated : Bool)
      (caption : Option String)
deriving Repr, DecidableEq

/-- Result of one Stage invocation: the response, the trace of external
calls issued (in order), and the resulting sheet. -/
structure StageOutcome where
  result : StageResult
  events : List Ev
  sheet : Sheet
deriving Repr, DecidableEq

/-- What follows the Facebook `/media` call in the Stage handler, given the
call's `response`: on a non-ok response append a formatted error to the
row, on success write the returned id into Creation ID and report success.
`evs` and `rows` are the trace and sheet accumulated by the caption step;
the create-container call itself is appended to the trace first. -/
def finishFb (rowIndex : Nat) (data : RowData) (caption : String)
    (captionGenerated : Bool) (now : String) (response : FbRes)
    (evs : List Ev) (rows : Sheet) : StageOutcome :=
  match response with
  | .err status msg code =>
      ⟨.fbError rowIndex status,
        evs ++ [Ev.fbCreateContainer caption (replaceExtJpg data.cloudinaryUrl)
            data.cloudinaryUrl,
          .writeError rowIndex ("[" ++ now ++ "] UPLOAD: "
            ++ msg.getD "Facebook API error" ++ " (Code: " ++ code.getD "unknown" ++ ")")],
        updateSheetRow rows rowIndex
          { error := some ("[" ++ now ++ "] UPLOAD: " ++ msg.getD "Facebook API error"
              ++ " (Code: " ++ code.getD "unknown" ++ ")") }⟩
  | .ok id =>
      ⟨.success id rowIndex captionGenerated
          (if captionGenerated then some caption else none),
        evs ++ [Ev.fbCreateContainer caption (replaceExtJpg data.cloudinaryUrl)
            data.cloudinaryUrl,
          .writeCreationId rowIndex id],
        updateSheetRow rows rowIndex { creationId := some id }⟩

/-- The Stage endpoint `POST` handler (configuration-present path), with the
clock, the captioning collaborator and the Facebook collaborator passed as
oracles: select the next unprocessed row, validate Cloudinary URL and
title, generate and persist a caption when the caption cell is empty, then
create the media container. -/
def stagePost (rows : Sheet) (now : String)
    (gen : String → String → Except String String)
    (fb : String → String → String → FbRes) : StageOutcome :=
  match getNextUnprocessedRow rows with
  | none => ⟨.noRows, [], rows⟩
  | some sel =>
      if sel.data.cloudinaryUrl = "" then
        let errorMsg := "[" ++ now ++ "] UPLOAD: Missing Cloudinary URL"
        ⟨.missingCloudinaryUrl sel.rowIndex, [.writeError sel.rowIndex errorMsg],
          updateSheetRow rows sel.rowIndex { error := some errorMsg }⟩
      else if sel.data.title = "" then
        let errorMsg := "[" ++ now ++ "] UPLOAD: Missing video title"
        ⟨.missingTitle sel.rowIndex, [.writeError sel.rowIndex errorMsg],
          updateSheetRow rows sel.rowIndex { error := some errorMsg }⟩
      else if sel.data.instagramCaption = "" then
        match gen sel.data.title sel.data.description with
        | .error m =>
            let errorMsg := "[" ++ now ++ "] UPLOAD: Failed to generate caption - " ++ m
            ⟨.captionFailed sel.rowIndex m,
              [.genCaption sel.data.title sel.data.description,
                .writeError sel.rowIndex errorMsg],
              updateSheetRow rows sel.rowIndex { error := some errorMsg }⟩
        | .ok c =>
            finishFb sel.rowIndex sel.data c true now
              (fb c (replaceExtJpg sel.data.cloudinaryUrl) sel.data.cloudinaryUrl)
              [.genCaption sel.data.title sel.data.description,
                .writeCaption sel.rowIndex c]
              (updateSheetRow rows sel.rowIndex { caption := some c })
      else
        finishFb sel.rowIndex sel.data sel.data.instagramCaption false now
          (fb sel.data.instagramCaption (replaceExtJpg sel.data.cloudinaryUrl)
            sel.data.cloudinaryUrl)
          [] rows

end Canonical

namespace SimpleUpload

/-- The 6-column queue row (columns A-F) of the simple-schema upload
route: Name, Caption, Link, Published At, Creation ID, Error. -/
structure RowData where
  name : String
  caption : String
  link : String
  publishedAt : String
  creationId : String
  error : String
deriving Repr, DecidableEq

/-- Build the `data` object returned by the selector from a raw row. -/
def rowDataOf (r : List String) : RowData :=
  { name := cell r 0
    caption := cell r 1
    link := cell r 2
    publishedAt := cell r 3
    creationId := cell r 4
    error := cell r 5 }

/-- A selected row of the simple schema. -/
structure Selected where
  rowIndex : Nat
  data : RowData
deriving Repr, DecidableEq

/-- Loop body of the simple-schema `getNextUnprocessedRow`. -/
def getNextUnprocessedRowGo (i : Nat) : Sheet → Option Selected
  | [] => none
  | r :: rest =>
      if cell r 3 = "" ∧ cell r 5 = "" then some ⟨i + 2, rowDataOf r⟩
      else getNextUnprocessedRowGo (i + 1) rest

/-- `getNextUnprocessedRow` of the simple-schema upload route: first row
where both Published At (column D) and Error (column F) are empty. -/
def getNextUnprocessedRow (rows : Sheet) : Option Selected :=
  getNextUnprocessedRowGo 0 rows

/-- The sparse update set of the simple-schema upload route. -/
structure Updates where
  creationId : Option String := none
  error : Option String := none

/-- `updateSheetRow` of the upload route: creationId to column E and error
to column F, each written only when the supplied value is truthy (present
and non-empty); the error cell is overwritten outright. -/
def updateSheetRow (rows : Sheet) (rowIndex : Nat) (u : Updates) : Sheet :=
  let r1 := match u.creationId with
    | some cid => if cid ≠ "" then setCell rows (rowIndex - 2) 4 cid else rows
    | none => rows
  match u.error with
  | some e => if e ≠ "" then setCell r1 (rowIndex - 2) 5 e else r1
  | none => r1

/-- The HTTP response of the simple-schema upload endpoint, by branch. -/
inductive UploadResult where
  | noRows
  | missingFields (row : Nat)
  | fbError (row : Nat) (status : Nat)
  | success (creationId : String) (row : Nat) (name : String)
deriving Repr, DecidableEq

/-- The upload route `POST` handler (configuration-present path): select
the next unprocessed row, validate link and caption, create the media
container, and record the returned Creation ID or the error. -/
def uploadPost (rows : Sheet) (fb : String → String → String → FbRes) :
    UploadResult × Sheet :=
  match getNextUnprocessedRow rows with
  | none => (.noRows, rows)
  | some sel =>
      if sel.data.link = "" ∨ sel.data.caption = "" then
        (.missingFields sel.rowIndex,
          updateSheetRow rows sel.rowIndex
            { error := some "UPLOAD: Missing video link or caption in sheet" })
      else
        match fb sel.data.caption (replaceExtJpg sel.data.link) sel.data.link with
        | .err status msg _ =>
            (.fbError sel.rowIndex status,
              updateSheetRow rows sel.rowIndex
                { error := some ("UPLOAD: " ++ msg.getD "Facebook API error") })
        | .ok id =>
            (.success id sel.rowIndex sel.data.name,
              updateSheetRow rows sel.rowIndex { creationId := some id })

end SimpleUpload

namespace SimplePublish

/-- The 7-column row layout (columns A-G) read by the publish route:
Name, Caption, Link, Transcript, Published At, Creation ID, Error. -/
structure RowData where
  name : String
  caption : String
  link : String
  transcript : String
  publishedAt : String
  creationId : String
  error : String
deriving Repr, DecidableEq

/-- Build the `data` object returned by the selector from a raw row. -/
def rowDataOf (r : List String) : RowData :=
  { name := cell r 0
    caption := cell r 1
    link := cell r 2
    transcript := cell r 3
    publishedAt := cell r 4
    creationId := cell r 5
    error := cell r 6 }

/-- A selected row of the publish route's layout. -/
structure Selected where
  rowIndex : Nat
  data : RowData
deriving Repr, DecidableEq

/-- The commit-ready predicate as evaluated by the publish route:
Creation ID (column F) non-empty, Published At (E) and Error (G) empty. -/
def commitReadyRow (r : List String) : Prop :=
  cell r 5 ≠ "" ∧ cell r 4 = "" ∧ cell r 6 = ""

instance (r : List String) : Decidable (commitReadyRow r) := by
  unfold commitReadyRow; infer_instance

/-- Loop body of `getNextPublishableRow`. -/
def getNextPublishableRowGo (i : Nat) : Sheet → Option Selected
  | [] => none
  | r :: rest =>
      if cell r 5 ≠ "" ∧ cell r 4 = "" ∧ cell r 6 = "" then
        some ⟨i + 2, rowDataOf r⟩
      else getNextPublishableRowGo (i + 1) rest

/-- `getNextPublishableRow` of the Commit endpoint: first row where
Creation ID exists and Published At and Error are empty. -/
def getNextPublishableRow (rows : Sheet) : Option Selected :=
  getNextPublishableRowGo 0 rows

/-- The sparse update set of the publish route. -/
structure Updates where
  publishedAt : Option String := none
  error : Option String := none

/-- `updateSheetRow` of the publish route: publishedAt to column E and
error to column G, each written only when the supplied value is truthy. -/
def updateSheetRow (rows : Sheet) (rowIndex : Nat) (u : Updates) : Sheet :=
  let r1 := match u.publishedAt with
    | some p => if p ≠ "" then setCell rows (rowIndex - 2) 4 p else rows
    | none => rows
  match u.error with
  | some e => if e ≠ "" then setCell r1 (rowIndex - 2) 6 e else r1
  | none => r1

/-- The HTTP response of the Commit endpoint, by branch. -/
inductive CommitResult where
  | noRows
  | fbError (row : Nat) (status : Nat)
  | success (publishedAt mediaId : String) (row : Nat) (name : String)
deriving Repr, DecidableEq

/-- The Commit endpoint `POST` handler (configuration-present path), with
the clock (`now`, the ISO-8601 rendering of the current time) and the
Facebook `/media_publish` collaborator passed as oracles. -/
def commitPost (rows : Sheet) (now : String) (fb : String → FbRes) :
    CommitResult × Sheet :=
  match getNextPublishableRow rows with
  | none => (.noRows, rows)
  | some sel =>
      match fb sel.data.creationId with
      | .err status msg _ =>
          (.fbError sel.rowIndex status,
            updateSheetRow rows sel.rowIndex
              { error := some ("PUBLISH: " ++ msg.getD "Facebook API error") })
      | .ok id =>
          (.success now id sel.rowIndex sel.data.name,
            updateSheetRow rows sel.rowIndex { publishedAt := some now })

end SimplePublish

namespace Reap

/-- Loop body of `getPublishedRows` (canonical 11-column layout):
collect every row whose Published At (column I) and Cloudinary URL
(column C) are both non-empty. -/
def getPublishedRowsGo (i : Nat) : Sheet → List Canonical.Selected
  | [] => []
  | r :: rest =>
      if cell r 8 ≠ "" ∧ cell r 2 ≠ "" then
        ⟨i + 2, Canonical.rowDataOf r⟩ :: getPublishedRowsGo (i + 1) rest
      else getPublishedRowsGo (i + 1) rest

/-- `getPublishedRows` of the Reap endpoint. -/
def getPublishedRows (rows : Sheet) : List Canonical.Selected :=
  getPublishedRowsGo 0 rows

/-- `\w` of the source regex: ASCII letter, digit or underscore. -/
def isWordChar (c : Char) : Bool := c.isAlphanum || c == '_'

/-- Does `pat` occur at the head of `cs`? -/
def startsWithSeq : List Char → List Char → Bool
  | [], _ => true
  | _ :: _, [] => false
  | p :: ps, c :: cs => p == c && startsWithSeq ps cs

/-- Capture part `[^\.\/]+(?:\/[^\.\/]+)*` followed by `\.\w+$` of the
`extractPublicId` regex. `nonempty` records whether the current path
segment already holds at least one character. Returns the captured
characters (everything up to, and excluding, the final dot). Each regex
step here is forced: a segment character can only extend the segment, `/`
can only start the next segment, and `.` can only begin the extension. -/
def segsAux : List Char → Bool → Option (List Char)
  | [], _ => none
  | c :: rest, nonempty =>
      if c == '.' then
        if nonempty && !rest.isEmpty && rest.all isWordChar then some [] else none
      else if c == '/' then
        if nonempty then (segsAux rest false).map (fun cap => c :: cap) else none
      else (segsAux rest true).map (fun cap => c :: cap)

/-- `\/` followed by the capture-and-extension part of the regex. -/
def matchSlashSegs : List Char → Option (List Char)
  | '/' :: t => segsAux t false
  | _ => none

/-- The part of the regex after the literal `/upload`: the greedy optional
version group `(?:\/v\d+)?` is tried first (with a maximal digit run —
only the maximal run can be followed by the required `/`), falling back to
no version group. -/
def afterUpload (cs : List Char) : Option (List Char) :=
  (match cs with
    | '/' :: 'v' :: rest =>
        let ds := rest.takeWhile Char.isDigit
        if ds.isEmpty then none else matchSlashSegs (rest.drop ds.length)
    | _ => none) <|> matchSlashSegs cs

/-- Leftmost-match scan: try the full pattern at every start position,
earliest first, exactly as `String.prototype.match` does. -/
def uploadScan : List Char → Option (List Char)
  | [] => none
  | c :: rest =>
      (if c == '/' && startsWithSeq "upload".toList rest then
        afterUpload (rest.drop 6)
      else none) <|> uploadScan rest

/-- Does the marker `/upload` occur anywhere in the character list? -/
def hasUploadMarker : List Char → Bool
  | [] => false
  | c :: rest =>
      (c == '/' && startsWithSeq "upload".toList rest) || hasUploadMarker rest

/-- `extractPublicId`: first match of
`\/upload(?:\/v\d+)?\/([^\.\/]+(?:\/[^\.\/]+)*)\.\w+$` in the URL,
returning the capture group, or `none` when the regex does not match. -/
def extractPublicId (cloudinaryUrl : String) : Option String :=
  (uploadScan cloudinaryUrl.toList).map fun cs => String.mk cs

/-- Outcome of one `cloudinary.v2.uploader.destroy` call: a result object,
or a thrown exception with its message. -/
inductive DeleteRes where
  | res (result : String)
  | thrown (message : String)
deriving Repr, DecidableEq

/-- One entry of the Reap response's `results` array. -/
inductive ReapOutcome where
  | skipped (rowIndex : Nat) (reason : String)
  | deleted (rowIndex : Nat) (publicId : String)
  | err (rowIndex : Nat) (publicId : String) (message : String)
deriving Repr, DecidableEq

/-- The `status` string carried by a results entry. -/
def ReapOutcome.status : ReapOutcome → String
  | .skipped .. => "skipped"
  | .deleted .. => "deleted"
  | .err .. => "error"

/-- The try/catch around the destroy call of one Reap iteration: a result
of `"ok"` or `"not found"` counts as a deletion; any other result raises
`Delete failed: …` which the per-row catch records as an `error` entry, as
it records a thrown exception's message. -/
def reapDelete (rowIndex : Nat) (publicId : String) (response : DeleteRes) :
    ReapOutcome × Nat :=
  match response with
  | .thrown m => (.err rowIndex publicId m, 0)
  | .res s =>
      if s = "ok" ∨ s = "not found" then (.deleted rowIndex publicId, 1)
      else (.err rowIndex publicId ("Delete failed: " ++ s), 0)

/-- One iteration of the Reap loop over a published row: its results entry
and its contribution to `deletedCount`. A missing public id yields a
"skipped" entry; otherwise the destroy call is made and handled by
`reapDelete`. The loop never writes to the sheet (the write-back in the
source is commented out). -/
def reapStep (destroy : String → DeleteRes) (row : Canonical.Selected) :
    ReapOutcome × Nat :=
  match extractPublicId row.data.cloudinaryUrl with
  | none => (.skipped row.rowIndex "Could not extract public_id from URL", 0)
  | some publicId => reapDelete row.rowIndex publicId (destroy publicId)

/-- The sequential Reap loop: the results list and the final
`deletedCount`. -/
def reapLoop (destroy : String → DeleteRes) :
    List Canonical.Selected → List ReapOutcome × Nat
  | [] => ([], 0)
  | row :: rest =>
      ((reapStep destroy row).1 :: (reapLoop destroy rest).1,
        (reapStep destroy row).2 + (reapLoop destroy rest).2)

end Reap

namespace Webhook

/-- A plain-text HTTP response of the webhook verification handler. -/
structure VerifyResponse where
  body : String
  status : Nat
deriving Repr, DecidableEq

/-- The `GET` handler of the webhook route: echo the challenge with
status 200 when `hub.mode` is `subscribe` and a (truthy) challenge is
present, otherwise answer `Invalid verification` with status 400.
`none` models an absent query parameter. -/
def webhookGet (mode challenge : Option String) : VerifyResponse :=
  if mode = some "subscribe" ∧ challenge.getD "" ≠ "" then ⟨challenge.getD "", 200⟩
  else ⟨"Invalid verification", 400⟩

end Webhook

/-- The stage-ready predicate of the simple-schema upload route: both
Published At (column D) and Error (column F) empty. -/
def SimpleUpload.uploadReadyRow (r : List String) : Prop :=
  cell r 3 = "" ∧ cell r 5 = ""

instance (r : List String) : Decidable (SimpleUpload.uploadReadyRow r) := by
  unfold SimpleUpload.uploadReadyRow; infer_instance

/-- Three reapable demo rows whose Cloudinary URLs extract to the public
ids `a`, `b` and `c`. -/
def reapDemoRows : List Canonical.Selected :=
  [⟨2, Canonical.rowDataOf ["", "", "https://host/upload/a.mp4", "A", "", "", "", "", "t1", "", ""]⟩,
   ⟨3, Canonical.rowDataOf ["", "", "https://host/upload/b.mp4", "B", "", "", "", "", "t2", "", ""]⟩,
   ⟨4, Canonical.rowDataOf ["", "", "https://host/upload/c.mp4", "C", "", "", "", "", "t3", "", ""]⟩]

/-- Demo destroy collaborator: result `ok` for public id `a`, result
`not found` for `b`, and a thrown exception for everything else. -/
def reapDemoDestroy (publicId : String) : Reap.DeleteRes :=
  if publicId = "a" then .res "ok"
  else if publicId = "b" then .res "not found"
  else .thrown "boom"

/-! ### Helper lemmas -/

/-- Writing a cell of a row and reading it back yields the written value. -/
theorem cell_setCellInRow_self (j : Nat) :
    ∀ (r : List String) (v : String), cell (setCellInRow r j v) j = v := by
  induction j with
  | zero =>
      intro r v
      cases r <;> simp [setCellInRow, cell]
  | succ j ih =>
      intro r v
      cases r with
      | nil => simpa [setCellInRow, cell] using ih [] v
      | cons c tl => simpa [setCellInRow, cell] using ih tl v

/-- Writing a cell of a sheet and reading it back yields the written value. -/
theorem cellAt_setCell_self (i : Nat) :
    ∀ (rows : Sheet) (j : Nat) (v : String),
      cellAt (setCell rows i j v) i j = v := by
  induction i with
  | zero =>
      intro rows j v
      cases rows <;> simpa [setCell, cellAt] using cell_setCellInRow_self j _ v
  | succ i ih =>
      intro rows j v
      cases rows with
      | nil => simpa [setCell, cellAt] using ih [] j v
      | cons r rs => simpa [setCell, cellAt] using ih rs j v

/-- The row at list position `pre.length` of `pre ++ r :: post` is `r`. -/
theorem getD_append_length (pre : Sheet) (r : List String) (post : Sheet) :
    (pre ++ r :: post).getD pre.length [] = r := by
  induction pre with
  | nil => simp
  | cons p ps ih => simpa using ih

/-- Characterization of the canonical stage selector loop: a hit is the
first stage-ready row, and its index is the running index plus its list
position plus 2. -/
theorem canonGo_some :
    ∀ (rows : Sheet) (i : Nat) (sel : Canonical.Selected),
      Canonical.getNextUnprocessedRowGo i rows = some sel →
      ∃ pre r post, rows = pre ++ r :: post ∧
        (∀ r' ∈ pre, ¬ Canonical.stageReadyRow r') ∧ Canonical.stageReadyRow r ∧
        sel.rowIndex = i + pre.length + 2 ∧ sel.data = Canonical.rowDataOf r := by
  intro rows
  induction rows with
  | nil => intro i sel h; simp [Canonical.getNextUnprocessedRowGo] at h
  | cons r rest ih =>
      intro i sel h
      rw [Canonical.getNextUnprocessedRowGo] at h
      split at h
      next hc =>
        injection h with h
        subst h
        exact ⟨[], r, rest, rfl, by simp, hc, by simp, rfl⟩
      next hc =>
        obtain ⟨pre, r', post, he, hpre, hr, hidx, hdata⟩ := ih (i + 1) sel h
        refine ⟨r :: pre, r', post, by simp [he], ?_, hr, ?_, hdata⟩
        · intro r'' hmem
          rcases List.mem_cons.mp hmem with rfl | hm
          · exact hc
          · exact hpre _ hm
        · simp only [List.length_cons]
          omega

/-- The canonical stage selector returns `none` exactly when no row is
stage-ready. -/
theorem canonGo_none :
    ∀ (rows : Sheet) (i : Nat),
      Canonical.getNextUnprocessedRowGo i rows = none ↔
        ∀ r ∈ rows, ¬ Canonical.stageReadyRow r := by
  intro rows
  induction rows with
  | nil => intro i; simp [Canonical.getNextUnprocessedRowGo]
  | cons r rest ih =>
      intro i
      rw [Canonical.getNextUnprocessedRowGo]
      split
      next hc =>
        constructor
        · intro h; exact Option.noConfusion h
        · intro hall; exact absurd hc (hall r (List.mem_cons_self r rest))
      next hc =>
        rw [ih (i + 1)]
        constructor
        · intro hall r' hmem
          rcases List.mem_cons.mp hmem with rfl | hm
          · exact hc
          · exact hall r' hm
        · intro hall r' hm
          exact hall r' (List.mem_cons_of_mem _ hm)

/-- Characterization of the publish selector loop: a hit is the first
commit-ready row. -/
theorem pubGo_some :
    ∀ (rows : Sheet) (i : Nat) (sel : SimplePublish.Selected),
      SimplePublish.getNextPublishableRowGo i rows = some sel →
      ∃ pre r post, rows = pre ++ r :: post ∧
        (∀ r' ∈ pre, ¬ SimplePublish.commitReadyRow r') ∧
        SimplePublish.commitReadyRow r ∧
        sel.rowIndex = i + pre.length + 2 ∧ sel.data = SimplePublish.rowDataOf r := by
  intro rows
  induction rows with
  | nil => intro i sel h; simp [SimplePublish.getNextPublishableRowGo] at h
  | cons r rest ih =>
      intro i sel h
      rw [SimplePublish.getNextPublishableRowGo] at h
      split at h
      next hc =>
        injection h with h
        subst h
        exact ⟨[], r, rest, rfl, by simp, hc, by simp, rfl⟩
      next hc =>
        obtain ⟨pre, r', post, he, hpre, hr, hidx, hdata⟩ := ih (i + 1) sel h
        refine ⟨r :: pre, r', post, by simp [he], ?_, hr, ?_, hdata⟩
        · intro r'' hmem
          rcases List.mem_cons.mp hmem with rfl | hm
          · exact hc
          · exact hpre _ hm
        · simp only [List.length_cons]
          omega

/-- The publish selector returns `none` exactly when no row is
commit-ready. -/
theorem pubGo_none :
    ∀ (rows : Sheet) (i : Nat),
      SimplePublish.getNextPublishableRowGo i rows = none ↔
        ∀ r ∈ rows, ¬ SimplePublish.commitReadyRow r := by
  intro rows
  induction rows with
  | nil => intro i; simp [SimplePublish.getNextPublishableRowGo]
  | cons r rest ih =>
      intro i
      rw [SimplePublish.getNextPublishableRowGo]
      split
      next hc =>
        constructor
        · intro h; exact Option.noConfusion h
        · intro hall; exact absurd hc (hall r (List.mem_cons_self r rest))
      next hc =>
        rw [ih (i + 1)]
        constructor
        · intro hall r' hmem
          rcases List.mem_cons.mp hmem with rfl | hm
          · exact hc
          · exact hall r' hm
        · intro hall r' hm
          exact hall r' (List.mem_cons_of_mem _ hm)

/-- Characterization of the simple-schema upload selector loop. -/
theorem simpleUpGo_some :
    ∀ (rows : Sheet) (i : Nat) (sel : SimpleUpload.Selected),
      SimpleUpload.getNextUnprocessedRowGo i rows = some sel →
      ∃ pre r post, rows = pre ++ r :: post ∧
        (∀ r' ∈ pre, ¬ SimpleUpload.uploadReadyRow r') ∧
        SimpleUpload.uploadReadyRow r ∧
        sel.rowIndex = i + pre.length + 2 ∧ sel.data = SimpleUpload.rowDataOf r := by
  intro rows
  induction rows with
  | nil => intro i sel h; simp [SimpleUpload.getNextUnprocessedRowGo] at h
  | cons r rest ih =>
      intro i sel h
      rw [SimpleUpload.getNextUnprocessedRowGo] at h
      split at h
      next hc =>
        injection h with h
        subst h
        exact ⟨[], r, rest, rfl, by simp, hc, by simp, rfl⟩
      next hc =>
        obtain ⟨pre, r', post, he, hpre, hr, hidx, hdata⟩ := ih (i + 1) sel h
        refine ⟨r :: pre, r', post, by simp [he], ?_, hr, ?_, hdata⟩
        · intro r'' hmem
          rcases List.mem_cons.mp hmem with rfl | hm
          · exact hc
          · exact hpre _ hm
        · simp only [List.length_cons]
          omega

/-- Every row the canonical stage selector returns has a non-empty
Cloudinary URL. -/
theorem canonSelected_cloudinaryUrl_ne (rows : Sheet) (sel : Canonical.Selected)
    (h : Canonical.getNextUnprocessedRow rows = some sel) :
    sel.data.cloudinaryUrl ≠ "" := by
  obtain ⟨pre, r, post, -, -, hr, -, hdata⟩ := canonGo_some rows 0 sel h
  rw [hdata]
  exact hr.1

/-! ### Claims -/

/-- Claim C1: for every list of queue rows, the row selector
(`getNextUnprocessedRow` in the canonical Stage endpoint,
`getNextPublishableRow` in Commit) returns the first row in top-to-bottom
sheet order satisfying its target predicate (stage-ready resp.
commit-ready) together with its 1-based sheet row index (list position
plus 2), and returns `none` exactly when no row satisfies the predicate. -/
theorem claim_C1_selectors_return_first_match :
    (∀ (rows : Sheet) (sel : Canonical.Selected),
      Canonical.getNextUnprocessedRow rows = some sel →
      ∃ pre r post, rows = pre ++ r :: post ∧
        (∀ r' ∈ pre, ¬ Canonical.stageReadyRow r') ∧ Canonical.stageReadyRow r ∧
        sel.rowIndex = pre.length + 2 ∧ sel.data = Canonical.rowDataOf r) ∧
    (∀ rows : Sheet,
      Canonical.getNextUnprocessedRow rows = none ↔
        ∀ r ∈ rows, ¬ Canonical.stageReadyRow r) ∧
    (∀ (rows : Sheet) (sel : SimplePublish.Selected),
      SimplePublish.getNextPublishableRow rows = some sel →
      ∃ pre r post, rows = pre ++ r :: post ∧
        (∀ r' ∈ pre, ¬ SimplePublish.commitReadyRow r') ∧
        SimplePublish.commitReadyRow r ∧
        sel.rowIndex = pre.length + 2 ∧ sel.data = SimplePublish.rowDataOf r) ∧
    (∀ rows : Sheet,
      SimplePublish.getNextPublishableRow rows = none ↔
        ∀ r ∈ rows, ¬ SimplePublish.commitReadyRow r) := by
  refine ⟨?_, ?_, ?_, ?_⟩
  · intro rows sel h
    obtain ⟨pre, r, post, he, hpre, hr, hidx, hdata⟩ := canonGo_some rows 0 sel h
    exact ⟨pre, r, post, he, hpre, hr, by omega, hdata⟩
  · intro rows
    exact canonGo_none rows 0
  · intro rows sel h
    obtain ⟨pre, r, post, he, hpre, hr, hidx, hdata⟩ := pubGo_some rows 0 sel h
    exact ⟨pre, r, post, he, hpre, hr, by omega, hdata⟩
  · intro rows
    exact pubGo_none rows 0

/-- Witness for C1 at a one-row sheet whose row is stage-ready, and at the
empty sheet for the commit selector. -/
theorem claim_C1_witness :
    (∃ pre r post, ([["", "", "x"]] : Sheet) = pre ++ r :: post ∧
      (∀ r' ∈ pre, ¬ Canonical.stageReadyRow r') ∧ Canonical.stageReadyRow r ∧
      (Canonical.Selected.mk 2 (Canonical.rowDataOf ["", "", "x"])).rowIndex =
        pre.length + 2 ∧
      (Canonical.Selected.mk 2 (Canonical.rowDataOf ["", "", "x"])).data =
        Canonical.rowDataOf r) ∧
    (SimplePublish.getNextPublishableRow [] = none ↔
      ∀ r ∈ ([] : Sheet), ¬ SimplePublish.commitReadyRow r) :=
  ⟨claim_C1_selectors_return_first_match.1 [["", "", "x"]] _ (by decide),
    claim_C1_selectors_return_first_match.2.2.2 []⟩

/-- Claim C2: a row whose error cell is non-empty is never returned by the
stage-ready or the commit-ready selector, in both the canonical and the
simple schema variants — equivalently, every selected row's error cell
(and the error field of the returned data) is empty. -/
theorem claim_C2_error_rows_never_selected :
    (∀ (rows : Sheet) (sel : Canonical.Selected),
      Canonical.getNextUnprocessedRow rows = some sel →
      cellAt rows (sel.rowIndex - 2) 10 = "" ∧ sel.data.error = "") ∧
    (∀ (rows : Sheet) (sel : SimpleUpload.Selected),
      SimpleUpload.getNextUnprocessedRow rows = some sel →
      cellAt rows (sel.rowIndex - 2) 5 = "" ∧ sel.data.error = "") ∧
    (∀ (rows : Sheet) (sel : SimplePublish.Selected),
      SimplePublish.getNextPublishableRow rows = some sel →
      cellAt rows (sel.rowIndex - 2) 6 = "" ∧ sel.data.error = "") := by
  refine ⟨?_, ?_, ?_⟩
  · intro rows sel h
    obtain ⟨pre, r, post, he, -, hr, hidx, hdata⟩ := canonGo_some rows 0 sel h
    have hpos : sel.rowIndex - 2 = pre.length := by omega
    constructor
    · rw [hpos, he]
      unfold cellAt
      rw [getD_append_length]
      exact hr.2.2.2
    · rw [hdata]
      exact hr.2.2.2
  · intro rows sel h
    obtain ⟨pre, r, post, he, -, hr, hidx, hdata⟩ := simpleUpGo_some rows 0 sel h
    have hpos : sel.rowIndex - 2 = pre.length := by omega
    constructor
    · rw [hpos, he]
      unfold cellAt
      rw [getD_append_length]
      exact hr.2
    · rw [hdata]
      exact hr.2
  · intro rows sel h
    obtain ⟨pre, r, post, he, -, hr, hidx, hdata⟩ := pubGo_some rows 0 sel h
    have hpos : sel.rowIndex - 2 = pre.length := by omega
    constructor
    · rw [hpos, he]
      unfold cellAt
      rw [getD_append_length]
      exact hr.2.2
    · rw [hdata]
      exact hr.2.2

/-- Witness for C2 at a one-row stage-ready sheet. -/
theorem claim_C2_witness :
    cellAt [["", "", "x"]]
      ((Canonical.Selected.mk 2 (Canonical.rowDataOf ["", "", "x"])).rowIndex - 2) 10 = "" ∧
    (Canonical.Selected.mk 2 (Canonical.rowDataOf ["", "", "x"])).data.error = "" :=
  claim_C2_error_rows_never_selected.1 [["", "", "x"]] _ (by decide)

/-- Claim C3: writing an error message `e2` to a row whose error cell holds
a non-empty string yields `existing ++ "\n" ++ e2` under the canonical
updater, yields exactly `e2` when the existing cell is empty, and yields a
plain overwrite with `e2` under the simple-schema updater. -/
theorem claim_C3_error_append_semantics :
    (∀ (rows : Sheet) (rowIndex : Nat) (e2 : String),
      cellAt rows (rowIndex - 2) 10 ≠ "" →
      cellAt (Canonical.updateSheetRow rows rowIndex { error := some e2 })
          (rowIndex - 2) 10 =
        cellAt rows (rowIndex - 2) 10 ++ "\n" ++ e2) ∧
    (∀ (rows : Sheet) (rowIndex : Nat) (e2 : String),
      cellAt rows (rowIndex - 2) 10 = "" →
      cellAt (Canonical.updateSheetRow rows rowIndex { error := some e2 })
          (rowIndex - 2) 10 = e2) ∧
    (∀ (rows : Sheet) (rowIndex : Nat) (e2 : String),
      e2 ≠ "" →
      cellAt (SimpleUpload.updateSheetRow rows rowIndex { error := some e2 })
          (rowIndex - 2) 5 = e2) := by
  refine ⟨?_, ?_, ?_⟩
  · intro rows rowIndex e2 hne
    unfold Canonical.updateSheetRow
    dsimp only
    rw [if_pos hne]
    exact cellAt_setCell_self _ _ _ _
  · intro rows rowIndex e2 heq
    unfold Canonical.updateSheetRow
    dsimp only
    rw [if_neg (by rw [heq]; exact fun hcon => hcon rfl)]
    exact cellAt_setCell_self _ _ _ _
  · intro rows rowIndex e2 hne
    unfold SimpleUpload.updateSheetRow
    dsimp only
    rw [if_pos hne]
    exact cellAt_setCell_self _ _ _ _

/-- Witness for C3 at a row whose error cell holds `E1`. -/
theorem claim_C3_witness :
    cellAt (Canonical.updateSheetRow
        [["", "", "", "", "", "", "", "", "", "", "E1"]] 2 { error := some "E2" })
        (2 - 2) 10 =
      cellAt [["", "", "", "", "", "", "", "", "", "", "E1"]] (2 - 2) 10 ++ "\n" ++ "E2" :=
  claim_C3_error_append_semantics.1
    [["", "", "", "", "", "", "", "", "", "", "E1"]] 2 "E2" (by decide)

/-- Claim C4 (refuted, code bug): the claim asserts that a row on which a
Stage invocation succeeds (final sheet write being the returned
creationId, publishedAt and error left empty) satisfies the commit-ready
predicate evaluated by the Commit endpoint's selector over the resulting
sheet. On the code this fails: the upload route writes Creation ID to
column E (as the repository's own guide documents), but
`getNextPublishableRow` reads Creation ID from column F and treats column
E as Published At, so the freshly staged row is not selected — here Stage
succeeds on row 2 with creationId `777`, yet the commit selector finds no
publishable row in the resulting sheet. -/
theorem claim_C4_staged_row_not_commit_ready :
    SimpleUpload.uploadPost
        [["Video 1", "Nice caption", "https://example.com/v.mp4"]]
        (fun _ _ _ => FbRes.ok "777") =
      (SimpleUpload.UploadResult.success "777" 2 "Video 1",
        [["Video 1", "Nice caption", "https://example.com/v.mp4", "", "777"]]) ∧
    SimplePublish.getNextPublishableRow
        [["Video 1", "Nice caption", "https://example.com/v.mp4", "", "777"]] = none := by
  decide

/-- The trace produced by `finishFb` always starts with the accumulated
events followed by the create-container call, whatever the response. -/
theorem finishFb_events_shape (rowIndex : Nat) (data : Canonical.RowData)
    (caption : String) (cg : Bool) (now : String) (response : FbRes)
    (evs : List Canonical.Ev) (rows : Sheet) :
    ∃ rest, (Canonical.finishFb rowIndex data caption cg now response evs rows).events =
      evs ++ Canonical.Ev.fbCreateContainer caption (replaceExtJpg data.cloudinaryUrl)
          data.cloudinaryUrl :: rest := by
  cases response with
  | ok id => exact ⟨[Canonical.Ev.writeCreationId rowIndex id], rfl⟩
  | err status msg code =>
      exact ⟨[Canonical.Ev.writeError rowIndex ("[" ++ now ++ "] UPLOAD: "
        ++ msg.getD "Facebook API error" ++ " (Code: " ++ code.getD "unknown" ++ ")")], rfl⟩

/-- `finishFb` never produces the `missingCloudinaryUrl` response. -/
theorem finishFb_result_ne_missing (rowIndex : Nat) (data : Canonical.RowData)
    (caption : String) (cg : Bool) (now : String) (response : FbRes)
    (evs : List Canonical.Ev) (rows : Sheet) (row : Nat) :
    (Canonical.finishFb rowIndex data caption cg now response evs rows).result ≠
      Canonical.StageResult.missingCloudinaryUrl row := by
  cases response <;> simp [Canonical.finishFb]

/-- Claim C5: in the canonical Stage endpoint, when the selected row's
caption is empty and the captioning call succeeds with `c`, the generated
caption is written to the row's caption cell strictly before the
create-container call is issued, and a success response carries
`captionGenerated := true` together with the caption; when the row already
has a caption, no captioning call appears in the trace and a success
response carries `captionGenerated := false`. -/
theorem claim_C5_caption_before_publish :
    (∀ (rows : Sheet) (now : String) (gen : String → String → Except String String)
        (fb : String → String → String → FbRes) (sel : Canonical.Selected) (c : String),
      Canonical.getNextUnprocessedRow rows = some sel →
      sel.data.title ≠ "" →
      sel.data.instagramCaption = "" →
      gen sel.data.title sel.data.description = Except.ok c →
      (∃ rest, (Canonical.stagePost rows now gen fb).events =
        Canonical.Ev.genCaption sel.data.title sel.data.description ::
          Canonical.Ev.writeCaption sel.rowIndex c ::
          Canonical.Ev.fbCreateContainer c (replaceExtJpg sel.data.cloudinaryUrl)
            sel.data.cloudinaryUrl :: rest) ∧
      (∀ id, fb c (replaceExtJpg sel.data.cloudinaryUrl) sel.data.cloudinaryUrl =
          FbRes.ok id →
        (Canonical.stagePost rows now gen fb).result =
          Canonical.StageResult.success id sel.rowIndex true (some c))) ∧
    (∀ (rows : Sheet) (now : String) (gen : String → String → Except String String)
        (fb : String → String → String → FbRes) (sel : Canonical.Selected),
      Canonical.getNextUnprocessedRow rows = some sel →
      sel.data.title ≠ "" →
      sel.data.instagramCaption ≠ "" →
      (∀ t d, Canonical.Ev.genCaption t d ∉ (Canonical.stagePost rows now gen fb).events) ∧
      (∀ id, fb sel.data.instagramCaption (replaceExtJpg sel.data.cloudinaryUrl)
          sel.data.cloudinaryUrl = FbRes.ok id →
        (Canonical.stagePost rows now gen fb).result =
          Canonical.StageResult.success id sel.rowIndex false none)) := by
  constructor
  · intro rows now gen fb sel c hsel htitle hcap hgen
    have hcloud := canonSelected_cloudinaryUrl_ne rows sel hsel
    simp only [Canonical.stagePost, hsel]
    rw [if_neg hcloud, if_neg htitle, if_pos hcap, hgen]
    constructor
    · exact finishFb_events_shape sel.rowIndex sel.data c true now
        (fb c (replaceExtJpg sel.data.cloudinaryUrl) sel.data.cloudinaryUrl)
        [Canonical.Ev.genCaption sel.data.title sel.data.description,
          Canonical.Ev.writeCaption sel.rowIndex c]
        (Canonical.updateSheetRow rows sel.rowIndex { caption := some c })
    · intro id hfb
      show (Canonical.finishFb sel.rowIndex sel.data c true now
          (fb c (replaceExtJpg sel.data.cloudinaryUrl) sel.data.cloudinaryUrl)
          [Canonical.Ev.genCaption sel.data.title sel.data.description,
            Canonical.Ev.writeCaption sel.rowIndex c]
          (Canonical.updateSheetRow rows sel.rowIndex { caption := some c })).result =
        Canonical.StageResult.success id sel.rowIndex true (some c)
      rw [hfb]
      rfl
  · intro rows now gen fb sel hsel htitle hcap
    have hcloud := canonSelected_cloudinaryUrl_ne rows sel hsel
    simp only [Canonical.stagePost, hsel]
    rw [if_neg hcloud, if_neg htitle, if_neg hcap]
    constructor
    · intro t d
      cases hfb : fb sel.data.instagramCaption (replaceExtJpg sel.data.cloudinaryUrl)
          sel.data.cloudinaryUrl with
      | ok id => simp [Canonical.finishFb]
      | err status msg code => simp [Canonical.finishFb]
    · intro id hfb
      rw [hfb]
      rfl

/-- Witness for C5 at a one-row sheet with empty caption, a captioning
oracle answering `CAP` and a create-container oracle answering `ID1`. -/
theorem claim_C5_witness :
    (Canonical.stagePost [["", "", "u.mp4", "T"]] "NOW" (fun _ _ => Except.ok "CAP")
        (fun _ _ _ => FbRes.ok "ID1")).result =
      Canonical.StageResult.success "ID1"
        (Canonical.Selected.mk 2 (Canonical.rowDataOf ["", "", "u.mp4", "T"])).rowIndex
        true (some "CAP") :=
  (claim_C5_caption_before_publish.1 [["", "", "u.mp4", "T"]] "NOW"
      (fun _ _ => Except.ok "CAP") (fun _ _ _ => FbRes.ok "ID1")
      ⟨2, Canonical.rowDataOf ["", "", "u.mp4", "T"]⟩ "CAP"
      (by decide) (by decide) (by decide) rfl).2 "ID1" rfl

/-- Claim C6: in the Commit endpoint, when a commit-ready row is selected
and the publish-container call succeeds, the row's Published At cell is
set to the clock's ISO-8601 rendering `now`, and the response is a success
carrying that timestamp, the platform's returned media id, the selected
row's index and its name. -/
theorem claim_C6_commit_success :
    ∀ (rows : Sheet) (now : String) (fb : String → FbRes)
      (sel : SimplePublish.Selected) (id : String),
      now ≠ "" →
      SimplePublish.getNextPublishableRow rows = some sel →
      fb sel.data.creationId = FbRes.ok id →
      (SimplePublish.commitPost rows now fb).1 =
        SimplePublish.CommitResult.success now id sel.rowIndex sel.data.name ∧
      cellAt (SimplePublish.commitPost rows now fb).2 (sel.rowIndex - 2) 4 = now := by
  intro rows now fb sel id hnow hsel hfb
  simp only [SimplePublish.commitPost, hsel, hfb]
  constructor
  · trivial
  · unfold SimplePublish.updateSheetRow
    dsimp only
    rw [if_pos hnow]
    exact cellAt_setCell_self _ _ _ _

/-- Witness for C6 at a one-row commit-ready sheet, a fixed clock and a
publish oracle answering `MID`. -/
theorem claim_C6_witness :
    (SimplePublish.commitPost [["N", "", "", "", "", "CID"]] "2026-01-01T00:00:00.000Z"
        (fun _ => FbRes.ok "MID")).1 =
      SimplePublish.CommitResult.success "2026-01-01T00:00:00.000Z" "MID"
        (SimplePublish.Selected.mk 2
          (SimplePublish.rowDataOf ["N", "", "", "", "", "CID"])).rowIndex
        (SimplePublish.Selected.mk 2
          (SimplePublish.rowDataOf ["N", "", "", "", "", "CID"])).data.name ∧
    cellAt (SimplePublish.commitPost [["N", "", "", "", "", "CID"]]
        "2026-01-01T00:00:00.000Z" (fun _ => FbRes.ok "MID")).2
      ((SimplePublish.Selected.mk 2
        (SimplePublish.rowDataOf ["N", "", "", "", "", "CID"])).rowIndex - 2) 4 =
      "2026-01-01T00:00:00.000Z" :=
  claim_C6_commit_success [["N", "", "", "", "", "CID"]] "2026-01-01T00:00:00.000Z"
    (fun _ => FbRes.ok "MID") ⟨2, SimplePublish.rowDataOf ["N", "", "", "", "", "CID"]⟩
    "MID" (by decide) (by decide) rfl

/-- Claim C10: in the canonical Stage endpoint the post-selection check on
an empty Cloudinary URL is unreachable — every row returned by the
selector has a non-empty Cloudinary URL, so the handler never produces the
`missingCloudinaryUrl` (HTTP 400) response, for any queue state and any
collaborator behavior. -/
theorem claim_C10_missing_cloudinary_unreachable :
    (∀ (rows : Sheet) (sel : Canonical.Selected),
      Canonical.getNextUnprocessedRow rows = some sel →
      sel.data.cloudinaryUrl ≠ "") ∧
    (∀ (rows : Sheet) (now : String) (gen : String → String → Except String String)
        (fb : String → String → String → FbRes) (row : Nat),
      (Canonical.stagePost rows now gen fb).result ≠
        Canonical.StageResult.missingCloudinaryUrl row) := by
  constructor
  · exact canonSelected_cloudinaryUrl_ne
  · intro rows now gen fb row
    cases hsel : Canonical.getNextUnprocessedRow rows with
    | none => simp [Canonical.stagePost, hsel]
    | some sel =>
        have hcloud := canonSelected_cloudinaryUrl_ne rows sel hsel
        simp only [Canonical.stagePost, hsel]
        rw [if_neg hcloud]
        by_cases ht : sel.data.title = ""
        · rw [if_pos ht]; simp
        · rw [if_neg ht]
          by_cases hcap : sel.data.instagramCaption = ""
          · rw [if_pos hcap]
            cases hg : gen sel.data.title sel.data.description with
            | error m => simp
            | ok c =>
                exact finishFb_result_ne_missing sel.rowIndex sel.data c true now
                  (fb c (replaceExtJpg sel.data.cloudinaryUrl) sel.data.cloudinaryUrl)
                  [Canonical.Ev.genCaption sel.data.title sel.data.description,
                    Canonical.Ev.writeCaption sel.rowIndex c]
                  (Canonical.updateSheetRow rows sel.rowIndex { caption := some c }) row
          · rw [if_neg hcap]
            exact finishFb_result_ne_missing _ _ _ _ _ _ _ _ _

/-- Witness for C10 at a one-row stage-ready sheet. -/
theorem claim_C10_witness :
    (Canonical.Selected.mk 2 (Canonical.rowDataOf ["", "", "x"])).data.cloudinaryUrl ≠ "" :=
  claim_C10_missing_cloudinary_unreachable.1 [["", "", "x"]] _ (by decide)

/-- A character list without the `/upload` marker admits no match of the
`extractPublicId` pattern. -/
theorem uploadScan_eq_none_of_no_marker :
    ∀ cs : List Char, Reap.hasUploadMarker cs = false → Reap.uploadScan cs = none := by
  intro cs
  induction cs with
  | nil => intro h; rfl
  | cons c rest ih =>
      intro h
      rw [Reap.hasUploadMarker, Bool.or_eq_false_iff] at h
      rw [Reap.uploadScan, h.1, ih h.2]
      rfl

/-- Claim C7: in the Reap batch loop, a delete result of `ok` or
`not found` yields a `deleted` entry counting one deletion; any other
result or a thrown exception yields an `error` entry counting zero, and
never aborts the batch — the loop distributes over list append, so every
remaining row is still processed. On three reapable rows whose deletions
return `ok`, `not found`, and throw respectively, `deletedCount` is 2 and
the third entry's status is `error`. -/
theorem claim_C7_reap_error_isolation :
    (∀ (destroy : String → Reap.DeleteRes) (rows1 rows2 : List Canonical.Selected),
      Reap.reapLoop destroy (rows1 ++ rows2) =
        ((Reap.reapLoop destroy rows1).1 ++ (Reap.reapLoop destroy rows2).1,
          (Reap.reapLoop destroy rows1).2 + (Reap.reapLoop destroy rows2).2)) ∧
    (∀ (destroy : String → Reap.DeleteRes) (row : Canonical.Selected) (publicId : String),
      Reap.extractPublicId row.data.cloudinaryUrl = some publicId →
      (∀ s, destroy publicId = Reap.DeleteRes.res s → (s = "ok" ∨ s = "not found") →
        Reap.reapStep destroy row = (Reap.ReapOutcome.deleted row.rowIndex publicId, 1)) ∧
      (∀ s, destroy publicId = Reap.DeleteRes.res s → ¬(s = "ok" ∨ s = "not found") →
        Reap.reapStep destroy row =
          (Reap.ReapOutcome.err row.rowIndex publicId ("Delete failed: " ++ s), 0)) ∧
      (∀ m, destroy publicId = Reap.DeleteRes.thrown m →
        Reap.reapStep destroy row = (Reap.ReapOutcome.err row.rowIndex publicId m, 0))) ∧
    ((Reap.reapLoop reapDemoDestroy reapDemoRows).2 = 2 ∧
      (Reap.reapLoop reapDemoDestroy reapDemoRows).1.map Reap.ReapOutcome.status =
        ["deleted", "deleted", "error"]) := by
  refine ⟨?_, ?_, ?_⟩
  · intro destroy rows1 rows2
    induction rows1 with
    | nil => simp [Reap.reapLoop]
    | cons row rest ih => simp [Reap.reapLoop, ih, Nat.add_assoc]
  · intro destroy row publicId hpid
    have hstep : Reap.reapStep destroy row =
        Reap.reapDelete row.rowIndex publicId (destroy publicId) := by
      unfold Reap.reapStep
      rw [hpid]
    refine ⟨?_, ?_, ?_⟩
    · intro s hds hok
      rw [hstep, hds]
      simp only [Reap.reapDelete]
      rw [if_pos hok]
    · intro s hds hko
      rw [hstep, hds]
      simp only [Reap.reapDelete]
      rw [if_neg hko]
    · intro m hdm
      rw [hstep, hdm]
      rfl
  · constructor
    · decide
    · decide

/-- Witness for C7: the thrown-exception case of the step characterization
at the third demo row. -/
theorem claim_C7_witness :
    Reap.reapStep reapDemoDestroy
        ⟨4, Canonical.rowDataOf
          ["", "", "https://host/upload/c.mp4", "C", "", "", "", "", "t3", "", ""]⟩ =
      (Reap.ReapOutcome.err 4 "c" "boom", 0) :=
  (claim_C7_reap_error_isolation.2.1 reapDemoDestroy
      ⟨4, Canonical.rowDataOf
        ["", "", "https://host/upload/c.mp4", "C", "", "", "", "", "t3", "", ""]⟩
      "c" (by decide)).2.2 "boom" (by decide)

/-- Claim C8: `extractPublicId` applied to
`https://host/upload/v123/folder/clip.mp4` yields `folder/clip`; applied
to any URL without the `/upload` marker it yields `none`; and on a row
whose URL yields `none`, the Reap loop records a `skipped` entry for that
row and continues with the remaining rows unchanged (the loop writes
nothing to the sheet in any case). -/
theorem claim_C8_extract_public_id :
    Reap.extractPublicId "https://host/upload/v123/folder/clip.mp4" =
      some "folder/clip" ∧
    (∀ url : String, Reap.hasUploadMarker url.toList = false →
      Reap.extractPublicId url = none) ∧
    (∀ (destroy : String → Reap.DeleteRes) (row : Canonical.Selected)
        (rest : List Canonical.Selected),
      Reap.extractPublicId row.data.cloudinaryUrl = none →
      Reap.reapLoop destroy (row :: rest) =
        (Reap.ReapOutcome.skipped row.rowIndex "Could not extract public_id from URL" ::
            (Reap.reapLoop destroy rest).1,
          (Reap.reapLoop destroy rest).2)) := by
  refine ⟨by decide, ?_, ?_⟩
  · intro url h
    unfold Reap.extractPublicId
    rw [uploadScan_eq_none_of_no_marker url.toList h]
    rfl
  · intro destroy row rest hnone
    have hstep : Reap.reapStep destroy row =
        (Reap.ReapOutcome.skipped row.rowIndex "Could not extract public_id from URL", 0) := by
      unfold Reap.reapStep
      rw [hnone]
    rw [Reap.reapLoop, hstep]
    simp

/-- Witness for C8: a URL without the `/upload` marker extracts to `none`. -/
theorem claim_C8_witness :
    Reap.extractPublicId "https://example.com/videos/clip.mp4" = none :=
  claim_C8_extract_public_id.2.1 "https://example.com/videos/clip.mp4" (by decide)

/-- Claim C9: the ingest-verify handler echoes the challenge with status
200 when the subscription mode is `subscribe` and a (non-empty) challenge
is present, and answers status 400 for any other mode value. -/
theorem claim_C9_webhook_verification :
    (∀ c : String, c ≠ "" →
      Webhook.webhookGet (some "subscribe") (some c) = ⟨c, 200⟩) ∧
    (∀ (mode challenge : Option String), mode ≠ some "subscribe" →
      (Webhook.webhookGet mode challenge).status = 400) := by
  constructor
  · intro c hc
    unfold Webhook.webhookGet
    rw [if_pos ⟨rfl, hc⟩]
    rfl
  · intro mode challenge hmode
    unfold Webhook.webhookGet
    rw [if_neg (fun hcon => hmode hcon.1)]

/-- Witness for C9 at the challenge `abc123`. -/
theorem claim_C9_witness :
    Webhook.webhookGet (some "subscribe") (some "abc123") = ⟨"abc123", 200⟩ :=
  claim_C9_webhook_verification.1 "abc123" (by decide)
